import Mathlib

/-!
Verification of the `@jerry-sb/api-module` request-handling pipeline:
a shallow embedding of `src/packages/api-module/src/handler.ts`,
`error.ts`, `messeage.ts` and `client.ts`.

Promises are modelled with `Except Thrown`: a rejected promise is
`Except.error`, a resolved one `Except.ok`.  JavaScript runtime values
that flow through contexts, schemas and payloads are modelled by the
inductive type `Val`.
-/

/-- A JavaScript number arising from a decimal numeral, represented
exactly as `num / 10 ^ exp` (Mathlib's `Rat` arithmetic is irreducible
for the kernel, so a dedicated reducible representation is used). -/
structure JsNum where
  num : Int
  exp : Nat := 0
deriving DecidableEq, Repr

/-- Product of two such numbers: numerators multiply, exponents add. -/
def JsNum.mul (a b : JsNum) : JsNum :=
  ⟨a.num * b.num, a.exp + b.exp⟩

/-- `a ≤ b` on the represented values `a.num / 10^a.exp ≤ b.num / 10^b.exp`,
cross-multiplied (denominators are positive). -/
def JsNum.le (a b : JsNum) : Prop :=
  a.num * (10 : Int) ^ b.exp ≤ b.num * (10 : Int) ^ a.exp

/-- `a < b` on the represented values. -/
def JsNum.lt (a b : JsNum) : Prop :=
  a.num * (10 : Int) ^ b.exp < b.num * (10 : Int) ^ a.exp

instance (a b : JsNum) : Decidable (JsNum.le a b) := by
  unfold JsNum.le; infer_instance

instance (a b : JsNum) : Decidable (JsNum.lt a b) := by
  unfold JsNum.lt; infer_instance

/-- JavaScript runtime values as they appear in contexts, bodies and
payloads (`undefined`, `null`, strings, numbers, booleans, objects). -/
inductive Val where
  | vundefined : Val
  | vnull : Val
  | vstr (s : String) : Val
  | vnum (q : JsNum) : Val
  | vbool (b : Bool) : Val
  | vobj (fields : List (String × Val)) : Val
deriving Repr

/-- `LangType` from `client.ts`. -/
inductive LangType where
  | kr
  | en
deriving DecidableEq, Repr

/-- `MessageKey` — the keys of the `MESSAGES` table in `messeage.ts`. -/
inductive MessageKey where
  | INTERNAL_ERROR
  | UNAUTHORIZED_ERROR
  | UNKNOWN_ERROR
  | FORBIDDEN_ERROR
  | VALIDATION_ERROR
  | NOT_FOUND_ERROR
  | WRONG_PATH_ERROR
  | UPDATE_NO_BODY_ERROR
  | UNIQUE_ERROR
  | TIMEOUT_ERROR
  | SIGNATURE_ERROR
deriving DecidableEq, Repr

/-- The `kr` entry of `MESSAGES` in `messeage.ts`. -/
def messagesKr : MessageKey → String
  | .INTERNAL_ERROR => "서버 내부 오류가 발생했습니다."
  | .UNAUTHORIZED_ERROR => "인증이 필요합니다."
  | .UNKNOWN_ERROR => "알 수 없는 에러가 발생했습니다."
  | .FORBIDDEN_ERROR => "접근 권한이 없습니다."
  | .VALIDATION_ERROR => "유효성 검사 오류가 발생했습니다."
  | .NOT_FOUND_ERROR => "해당 데이터가 존재하지 않습니다."
  | .WRONG_PATH_ERROR => "잘못된 경로입니다."
  | .UPDATE_NO_BODY_ERROR => "업데이트할 데이터가 없습니다."
  | .UNIQUE_ERROR => "이미 존재하는 고유값입니다."
  | .TIMEOUT_ERROR => "서버 응답이 없습니다."
  | .SIGNATURE_ERROR => "시그니처 검증에 실패했습니다."

/-- The `en` entry of `MESSAGES` in `messeage.ts`. -/
def messagesEn : MessageKey → String
  | .INTERNAL_ERROR => "Internal server error occurred."
  | .UNAUTHORIZED_ERROR => "Authentication is required."
  | .UNKNOWN_ERROR => "Unknown error occurred."
  | .FORBIDDEN_ERROR => "Access is forbidden."
  | .VALIDATION_ERROR => "Validation error occurred."
  | .NOT_FOUND_ERROR => "Data not found."
  | .WRONG_PATH_ERROR => "Invalid path."
  | .UPDATE_NO_BODY_ERROR => "No update data provided."
  | .UNIQUE_ERROR => "Unique constraint violated."
  | .TIMEOUT_ERROR => "Server response timed out."
  | .SIGNATURE_ERROR => "Signature validation failed."

/-- Printable name of a message key (for the unknown-key fallback string). -/
def MessageKey.keyName : MessageKey → String
  | .INTERNAL_ERROR => "INTERNAL_ERROR"
  | .UNAUTHORIZED_ERROR => "UNAUTHORIZED_ERROR"
  | .UNKNOWN_ERROR => "UNKNOWN_ERROR"
  | .FORBIDDEN_ERROR => "FORBIDDEN_ERROR"
  | .VALIDATION_ERROR => "VALIDATION_ERROR"
  | .NOT_FOUND_ERROR => "NOT_FOUND_ERROR"
  | .WRONG_PATH_ERROR => "WRONG_PATH_ERROR"
  | .UPDATE_NO_BODY_ERROR => "UPDATE_NO_BODY_ERROR"
  | .UNIQUE_ERROR => "UNIQUE_ERROR"
  | .TIMEOUT_ERROR => "TIMEOUT_ERROR"
  | .SIGNATURE_ERROR => "SIGNATURE_ERROR"

/-- `getMessage` from `messeage.ts` after `initMessageGetter(lang)`:
`selected || fallback || unknown-key string`, where the message catalog
is the process-wide collaborator initialized once at startup. -/
def getMessage (lang : LangType) (key : MessageKey) : String :=
  let fallback := messagesKr key
  let selected := (match lang with | .kr => messagesKr | .en => messagesEn) key
  if selected ≠ "" then selected
  else if fallback ≠ "" then fallback
  else "Unknown message key: " ++ key.keyName

/-- `ServerErrorType` from `error.ts`. -/
inductive ServerErrorType where
  | fetch
  | serverAction
deriving DecidableEq, Repr

/-- The `ServerError` instance produced by the `ServerError` class of
`error.ts`: `code`, `message`, optional `payload`, `method`, `url`, and
the `type` tag assigned by the constructor. -/
structure ServerError where
  type : ServerErrorType
  code : Int
  message : String
  payload : Option Val := none
  method : Option String := none
  url : Option String := none
deriving Repr

/-- The argument object of the `ServerError` constructor in `error.ts`. -/
structure ServerErrorArgs where
  code : Int
  message : String
  payload : Option Val := none
  method : Option String := none
  url : Option String := none

/-- JavaScript truthiness of an optional string (`if (url)`): a string is
truthy exactly when it is present and non-empty. -/
def truthyStr : Option String → Bool
  | none => false
  | some s => s ≠ ""

/-- The body of the `ServerError` constructor in `error.ts`:
`this.url` is assigned only when `url` is truthy (then `type = FETCH`),
otherwise `url` stays undefined and `type = SERVER_ACTION`; in both
branches `this.method = method ?? "none"`. -/
def ServerError.construct (args : ServerErrorArgs) : ServerError :=
  if truthyStr args.url then
    { type := .fetch
      code := args.code
      message := args.message
      payload := args.payload
      method := some (args.method.getD "none")
      url := args.url }
  else
    { type := .serverAction
      code := args.code
      message := args.message
      payload := args.payload
      method := some (args.method.getD "none")
      url := none }

/-- The argument object of the named subtype constructors in `error.ts`
(`Omit<ConstructorParameters<typeof ServerError>[0], "code" | "message">`). -/
structure SubErrorArgs where
  payload : Option Val := none
  method : Option String := none
  url : Option String := none

/-- `UnauthorizedError` from `error.ts`:
`super({ code: 401, message: getMessage("UNAUTHORIZED_ERROR"), ...args })`. -/
def UnauthorizedError (lang : LangType) (args : SubErrorArgs) : ServerError :=
  ServerError.construct
    { code := 401, message := getMessage lang .UNAUTHORIZED_ERROR
      payload := args.payload, method := args.method, url := args.url }

/-- `ForbiddenError` from `error.ts`. -/
def ForbiddenError (lang : LangType) (args : SubErrorArgs) : ServerError :=
  ServerError.construct
    { code := 403, message := getMessage lang .FORBIDDEN_ERROR
      payload := args.payload, method := args.method, url := args.url }

/-- `ValidationError` from `error.ts`. -/
def ValidationError (lang : LangType) (args : SubErrorArgs) : ServerError :=
  ServerError.construct
    { code := 400, message := getMessage lang .VALIDATION_ERROR
      payload := args.payload, method := args.method, url := args.url }

/-- `NotFoundError` from `error.ts`. -/
def NotFoundError (lang : LangType) (args : SubErrorArgs) : ServerError :=
  ServerError.construct
    { code := 404, message := getMessage lang .NOT_FOUND_ERROR
      payload := args.payload, method := args.method, url := args.url }

/-- `InternalServerError` from `error.ts`. -/
def InternalServerError (lang : LangType) (args : SubErrorArgs) : ServerError :=
  ServerError.construct
    { code := 500, message := getMessage lang .INTERNAL_ERROR
      payload := args.payload, method := args.method, url := args.url }

/-- `TimeoutError` from `error.ts`. -/
def TimeoutError (lang : LangType) (args : SubErrorArgs) : ServerError :=
  ServerError.construct
    { code := 408, message := getMessage lang .TIMEOUT_ERROR
      payload := args.payload, method := args.method, url := args.url }

/-- A single issue of a Zod validation error (only its `message` is read
by the code). -/
structure ZodIssue where
  message : String
deriving Repr

/-- A `ZodError` value: its `errors` array of issues. -/
structure ZodError where
  errors : List ZodIssue
deriving Repr

/-- An arbitrary thrown JavaScript value, discriminated the way
`handleServerError` does with `instanceof`: a `ZodError`, a taxonomy
`ServerError` (any subtype), or anything else (plain `Error`s, strings,
data, ...). -/
inductive Thrown where
  | zod (e : ZodError) : Thrown
  | server (e : ServerError) : Thrown
  | other (v : Val) : Thrown
deriving Repr

/-- The normalized `{code, message, payload}` shape returned by
`handleServerError` in `error.ts`.  The `payload` field holds either the
caller-supplied payload argument (type parameter `π`, `Sum.inl`) or, in
the `ServerError` branch, the error's own payload (`Sum.inr`). -/
structure ServerResponse (π : Type) where
  code : Int
  message : String
  payload : Option (π ⊕ Val) := none

/-- `handleServerError` from `error.ts` (the variant under `src/`):
ZodError → 400 with `error.errors[0]?.message || getMessage("VALIDATION_ERROR")`;
ServerError → the error's own `code`/`message`/`payload`;
anything else → 500 with `getMessage("UNKNOWN_ERROR")`.
`lang` is the language fixed at `createClient` time for `getMessage`. -/
def handleServerError {π : Type} (lang : LangType) (error : Thrown)
    (payload : Option π) : ServerResponse π :=
  match error with
  | .zod e =>
      { code := 400
        message :=
          match e.errors.head? with
          | some issue =>
              if issue.message ≠ "" then issue.message
              else getMessage lang .VALIDATION_ERROR
          | none => getMessage lang .VALIDATION_ERROR
        payload := payload.map Sum.inl }
  | .server e =>
      { code := e.code, message := e.message, payload := e.payload.map Sum.inr }
  | .other _ =>
      { code := 500, message := getMessage lang .UNKNOWN_ERROR
        payload := payload.map Sum.inl }

/-- `sortOrder` values of `PaginationParams`. -/
inductive SortOrder where
  | asc
  | desc
deriving DecidableEq, Repr

/-- `PaginationParams` from `handler.ts`; JavaScript numbers are modelled
as exact decimals (`JsNum`). -/
structure PaginationParams where
  pageIndex : JsNum
  pageSize : JsNum
  skip : JsNum
  sortBy : String
  sortOrder : SortOrder
deriving DecidableEq, Repr

/-- The `pagination` field of `ClientInstanceOptions` in `client.ts`:
which query-string keys the pagination step reads. -/
structure PaginationCfg where
  pageIndex : String
  pageSize : String
  sortBy : String
  sortOrder : String
deriving DecidableEq, Repr

/-- `ClientInstanceOptions` from `client.ts`. -/
structure ClientInstanceOptions where
  hmacKey : Option String := none
  lang : LangType
  pagination : PaginationCfg

/-- All-digit string to its numeric value (empty list refused). -/
def digitsToNat : List Char → Option Nat
  | [] => none
  | cs =>
      if cs.all Char.isDigit then
        some (cs.foldl (fun a c => a * 10 + (c.toNat - 48)) 0)
      else none

/-- JavaScript whitespace for `Number` conversion trimming. -/
def isJsSpace (c : Char) : Bool :=
  c = ' ' || c = '\t' || c = '\n' || c = '\r'

/-- Drop leading whitespace characters. -/
def dropLeadingSpaces : List Char → List Char
  | [] => []
  | c :: cs => if isJsSpace c then dropLeadingSpaces cs else c :: cs

/-- Trim whitespace at both ends of a character list. -/
def trimChars (cs : List Char) : List Char :=
  ((dropLeadingSpaces (dropLeadingSpaces cs).reverse)).reverse

/-- Split at the first dot, if any. -/
def breakAtDot : List Char → List Char × Option (List Char)
  | [] => ([], none)
  | c :: cs =>
      if c = '.' then ([], some cs)
      else
        let r := breakAtDot cs
        (c :: r.1, r.2)

/-- JavaScript `Number(s)` on a string, restricted to decimal numerals
(optional sign, integer part, optional fractional part); `none` is NaN.
Hexadecimal, exponent and `Infinity` forms are outside the modelled
input space.  The empty (or all-whitespace) string converts to `0`. -/
def jsNumber (s : String) : Option JsNum :=
  let t := trimChars s.data
  if t = [] then some ⟨0, 0⟩
  else
    let sign : Int := match t with
      | '-' :: _ => -1
      | _ => 1
    let u : List Char := match t with
      | '-' :: rest => rest
      | '+' :: rest => rest
      | _ => t
    match breakAtDot u with
    | (ip, none) => (digitsToNat ip).map (fun n => ⟨sign * n, 0⟩)
    | (ip, some fp) =>
        if fp.any (fun c => c = '.') then none
        else if ip = [] then
          (digitsToNat fp).map (fun f => ⟨sign * f, fp.length⟩)
        else if fp = [] then
          (digitsToNat ip).map (fun n => ⟨sign * n, 0⟩)
        else
          match digitsToNat ip, digitsToNat fp with
          | some n, some f =>
              some ⟨sign * (n * 10 ^ fp.length + f), fp.length⟩
          | _, _ => none

/-- `searchParams.get(k)`: the first value for `k`, or `null`. -/
def spGet (sp : List (String × String)) (k : String) : Option String :=
  (sp.find? (fun kv => kv.1 = k)).map (fun kv => kv.2)

/-- `Number(searchParams.get(k)) || d`: `get` misses → `Number(null) = 0`,
falsy → default; NaN → default; a number of value `0` → default; any other
number is kept (including negative ones — the code does not clamp). -/
def numberOr (v : Option String) (d : JsNum) : JsNum :=
  match v with
  | none => d
  | some s =>
      match jsNumber s with
      | none => d
      | some q => if q.num = 0 then d else q

/-- The pagination computation inside the `pagination` middleware of
`handler.ts` (lines 194–210): defaults `pageIndex → 0`, `pageSize → 10`,
`skip = pageIndex * pageSize`, `sortBy → "createdAt"` via `||`, and
`sortOrder === "desc" ? "desc" : "asc"`. -/
def computePagination (cfg : PaginationCfg) (sp : List (String × String)) :
    PaginationParams :=
  let pageIndex := numberOr (spGet sp cfg.pageIndex) ⟨0, 0⟩
  let pageSize := numberOr (spGet sp cfg.pageSize) ⟨10, 0⟩
  let skip := pageIndex.mul pageSize
  let sortBy :=
    match spGet sp cfg.sortBy with
    | some s => if s ≠ "" then s else "createdAt"
    | none => "createdAt"
  let sortOrder : SortOrder :=
    if spGet sp cfg.sortOrder = some "desc" then .desc else .asc
  { pageIndex := pageIndex, pageSize := pageSize, skip := skip
    sortBy := sortBy, sortOrder := sortOrder }

/-- The parts of a `NextRequest` the pipeline reads: HTTP method, URL,
the query string (as the ordered entry list of `nextUrl.searchParams`),
and the result of `await req.json()` (`Except.error` when the body is
absent or unparseable — that rejection is a thrown value). -/
structure Request where
  method : String := "GET"
  url : String := ""
  searchParams : List (String × String) := []
  jsonBody : Except Thrown Val := .error (.other .vundefined)

/-- The request context threaded through the pipeline (`BaseContext`):
a JavaScript object modelled as an ordered association list. -/
abbrev Ctx := List (String × Val)

/-- JavaScript spread update `{...ctx, k: v}`: replaces the value of an
existing key in place, or appends the new key at the end. -/
def setField (ctx : Ctx) (k : String) (v : Val) : Ctx :=
  if ctx.any (fun kv => kv.1 = k) then
    ctx.map (fun kv => if kv.1 = k then (k, v) else kv)
  else ctx ++ [(k, v)]

/-- Field lookup on a context; missing fields read as `undefined`. -/
def getField (ctx : Ctx) (k : String) : Option Val :=
  (ctx.find? (fun kv => kv.1 = k)).map (fun kv => kv.2)

/-- Field lookup defaulting to `undefined`. -/
def getFieldD (ctx : Ctx) (k : String) : Val :=
  (getField ctx k).getD .vundefined

/-- A Zod schema as the pipeline uses it: `schema.parse` returns the
validated/transformed value or throws a `ZodError` (the spec treats
schema validation as an opaque external capability of exactly this
shape). -/
def Schema := Val → Except ZodError Val

/-- `Object.fromEntries(searchParams.entries())`: later entries win. -/
def fromEntries (sp : List (String × String)) : List (String × Val) :=
  sp.foldl (fun acc kv => setField acc kv.1 (.vstr kv.2)) []

/-- `PaginationParams` as the JavaScript object stored in the context. -/
def PaginationParams.toVal (p : PaginationParams) : Val :=
  .vobj
    [("pageIndex", .vnum p.pageIndex), ("pageSize", .vnum p.pageSize),
     ("skip", .vnum p.skip), ("sortBy", .vstr p.sortBy),
     ("sortOrder", .vstr (match p.sortOrder with | .asc => "asc" | .desc => "desc"))]

/-- The JSON body of a pipeline response: either the success shape
`{code, message, data}` built by `handle`, or the error shape produced
by `handleServerError`. -/
inductive RespBody where
  | ok (code : Int) (message : String) (data : Val) : RespBody
  | err (e : ServerResponse Request) : RespBody

/-- A `NextResponse` produced by the pipeline: its transport status and
JSON body.  `NextResponse.json(body)` defaults the status to 200;
`NextResponse.json(body, {status})` sets it explicitly. -/
structure ResponseV where
  status : Int
  body : RespBody

/-- A middleware of the pipeline.  The four factory middlewares are the
step shapes built by `verifyBody` / `verifyParams` / `verifyQuery` /
`pagination` in `handler.ts`; the remaining shapes model user-supplied
middlewares as the `Middleware` type allows them: extend the context and
continue, throw, return `undefined` without calling `next`, or return a
response of their own.  Every shape calls `next` at most once, in tail
position, exactly as the factory middlewares do. -/
inductive Step where
  | verifyBody (schema : Schema) : Step
  | verifyParams (schema : Schema) : Step
  | verifyQuery (schema : Schema) : Step
  | pagination (cfg : PaginationCfg) : Step
  | addField (key : String) (value : Val) : Step
  | throwStep (t : Thrown) : Step
  | voidStep : Step
  | shortCircuit (r : ResponseV) : Step

/-- One middleware invocation `await middleware(req, ctx, next)`:
resolves to `some response`, resolves to `none` (a `void` return), or
rejects.  Mirrors the middleware bodies in `handler.ts`:
`verifyBody` awaits `req.json()` then `schema.parse`; `verifyParams`
parses `context.params`; `verifyQuery` parses the flattened query;
`pagination` never fails; each then returns `next(req, {...context, …})`. -/
def runStep (s : Step) (req : Request) (ctx : Ctx)
    (next : Request → Ctx → ResponseV) : Except Thrown (Option ResponseV) :=
  match s with
  | .verifyBody schema =>
      match req.jsonBody with
      | .error e => .error e
      | .ok jsonData =>
          match schema jsonData with
          | .error ze => .error (.zod ze)
          | .ok validationResult =>
              .ok (some (next req (setField ctx "body" validationResult)))
  | .verifyParams schema =>
      match schema (getFieldD ctx "params") with
      | .error ze => .error (.zod ze)
      | .ok parsed => .ok (some (next req (setField ctx "params" parsed)))
  | .verifyQuery schema =>
      match schema (.vobj (fromEntries req.searchParams)) with
      | .error ze => .error (.zod ze)
      | .ok parsedQuery => .ok (some (next req (setField ctx "query" parsedQuery)))
  | .pagination cfg =>
      .ok (some (next req
        (setField ctx "pagination" (computePagination cfg req.searchParams).toVal)))
  | .addField k v => .ok (some (next req (setField ctx k v)))
  | .throwStep t => .error t
  | .voidStep => .ok none
  | .shortCircuit r => .ok (some r)

/-- The success response `NextResponse.json({code:200, message:"success",
data})` built at the end of the chain. -/
def successResponse (data : Val) : ResponseV :=
  { status := 200, body := .ok 200 "success" data }

/-- The error response `NextResponse.json(errorObj, {status: errorObj.code})`
built in the catch boundary of `handle`. -/
def errorResponse (errorObj : ServerResponse Request) : ResponseV :=
  { status := errorObj.code, body := .err errorObj }

/-- The `next` function of `handle` in `handler.ts` (lines 237–260).
`try { if (index < middlewares.length) { run middleware; if its result is
a NextResponse, return it } return success(handlerFn(req, ctx)) } catch
(err) { return NextResponse.json(handleServerError(err, req), {status}) }`.
The mutable `index` cursor is represented by the remaining middleware
list: every middleware calls its continuation at most once, in tail
position, so the cursor always equals the position reached by the
recursion. -/
def nextRun (lang : LangType) (hf : Request → Ctx → Except Thrown Val) :
    List Step → Request → Ctx → ResponseV
  | steps, req, ctx =>
    let attempt : Except Thrown ResponseV :=
      match steps with
      | middleware :: rest =>
          match runStep middleware req ctx (nextRun lang hf rest) with
          | .error e => .error e
          | .ok (some response) => .ok response
          | .ok none =>
              match hf req ctx with
              | .error e => .error e
              | .ok d => .ok (successResponse d)
      | [] =>
          match hf req ctx with
          | .error e => .error e
          | .ok d => .ok (successResponse d)
    match attempt with
    | .ok r => r
    | .error err => errorResponse (handleServerError lang err (some req))

/-- The bound handler returned by `handle(handlerFn)` (lines 230–265):
awaits the deferred `context.params` — outside every try/catch — then
starts the chain with context `{params: resolvedParams}`.  The deferred
params value is an `Except`: `.error` models a rejected params promise,
and the result `Except` models the bound handler's own promise. -/
def handleRun (lang : LangType) (middlewares : List Step)
    (hf : Request → Ctx → Except Thrown Val) (req : Request)
    (paramsPromise : Except Thrown Val) : Except Thrown ResponseV :=
  match paramsPromise with
  | .error e => .error e
  | .ok resolvedParams =>
      .ok (nextRun lang hf middlewares req [("params", resolvedParams)])

/-- `RouteHandler` from `handler.ts`: the immutable builder value holding
the client options and the ordered middleware list. -/
structure RouteHandler where
  options : ClientInstanceOptions
  middlewares : List Step

/-- `createRouteHandler(options, middlewares = [])`. -/
def createRouteHandler (options : ClientInstanceOptions)
    (middlewares : List Step := []) : RouteHandler :=
  ⟨options, middlewares⟩

/-- The `verifyBody` chaining call: returns a new builder with the body
middleware appended (`[...middlewares, mw]`). -/
def RouteHandler.verifyBody (h : RouteHandler) (schema : Schema) : RouteHandler :=
  ⟨h.options, h.middlewares ++ [.verifyBody schema]⟩

/-- The `verifyParams` chaining call. -/
def RouteHandler.verifyParams (h : RouteHandler) (schema : Schema) : RouteHandler :=
  ⟨h.options, h.middlewares ++ [.verifyParams schema]⟩

/-- The `verifyQuery` chaining call. -/
def RouteHandler.verifyQuery (h : RouteHandler) (schema : Schema) : RouteHandler :=
  ⟨h.options, h.middlewares ++ [.verifyQuery schema]⟩

/-- The `pagination` chaining call; it captures `options.pagination` at
chain time. -/
def RouteHandler.pagination (h : RouteHandler) : RouteHandler :=
  ⟨h.options, h.middlewares ++ [.pagination h.options.pagination]⟩

/-- `handle(handlerFn)`: the terminal operation binding the accumulated
middleware list and the user function into a request handler.  The
message language is the one fixed by `createClient(options)`. -/
def RouteHandler.handle (h : RouteHandler)
    (hf : Request → Ctx → Except Thrown Val) :
    Request → Except Thrown Val → Except Thrown ResponseV :=
  handleRun h.options.lang h.middlewares hf

/-- Modelled from the spec: the per-kind override interface of §4.1
(`Construct(kind, overrides)`).  The named-kind constructors that accept
an override message exist only in the second error-module variant of the
repository, which is absent from `src/` (its unit tests construct
`new NotFoundError(customMessage)`); under `src/` the named subtypes
cannot take a message override.  Kinds and their fixed codes. -/
inductive ErrorKind where
  | unauthorized
  | forbidden
  | validation
  | notFound
  | internal
  | timeout
deriving DecidableEq, Repr

/-- The fixed status code of each kind (§4.1). -/
def ErrorKind.code : ErrorKind → Int
  | .unauthorized => 401
  | .forbidden => 403
  | .validation => 400
  | .notFound => 404
  | .internal => 500
  | .timeout => 408

/-- The message-catalog key holding each kind's default localized message. -/
def ErrorKind.defaultKey : ErrorKind → MessageKey
  | .unauthorized => .UNAUTHORIZED_ERROR
  | .forbidden => .FORBIDDEN_ERROR
  | .validation => .VALIDATION_ERROR
  | .notFound => .NOT_FOUND_ERROR
  | .internal => .INTERNAL_ERROR
  | .timeout => .TIMEOUT_ERROR

/-- The overrides record of §4.1: optional message, payload, method, url. -/
structure KindOverrides where
  message : Option String := none
  payload : Option Val := none
  method : Option String := none
  url : Option String := none

/-- Modelled from the spec: `Construct(kind, overrides)` of §4.1 — code
fixed by the kind, message = override message if supplied else the
kind's default localized string, payload/method/url passed through to
the base `ServerError` constructor. -/
def constructKind (lang : LangType) (k : ErrorKind) (o : KindOverrides) :
    ServerError :=
  ServerError.construct
    { code := k.code
      message := o.message.getD (getMessage lang k.defaultKey)
      payload := o.payload, method := o.method, url := o.url }

/-- The normalized `{code, message, metadata}` shape of the
override-capable error-module variant (§4.2, tested in the repository's
error unit tests): `metadata` is an arbitrary JavaScript value. -/
structure NormalizedError where
  code : Int
  message : String
  metadata : Val

/-- A process-wide override handler registered with
`setGlobalErrorHandler`: an async function of the error and request,
which may itself fail. -/
def GlobalErrorHandler := Thrown → Request → Except Thrown NormalizedError

/-- Modelled from the spec (§4.2 step 5): metadata always carries the
request URL and method, and the parsed request body only when the body
parses — a body-parse failure is swallowed, not an error. -/
def buildMetadata (req : Request) : Val :=
  .vobj
    ([("url", .vstr req.url), ("method", .vstr req.method)] ++
      (match req.jsonBody with
       | .ok b => [("body", b)]
       | .error _ => []))

/-- Modelled from the spec (§4.2 steps 2–4): the default normalization of
the override-capable variant — ZodError → 400 with the first issue's
message (or the generic validation message), taxonomy error → its own
code and message, anything else → 500 with the generic unknown-error
message; metadata from the request. -/
def defaultNormalize (lang : LangType) (error : Thrown) (req : Request) :
    NormalizedError :=
  match error with
  | .zod e =>
      { code := 400
        message :=
          match e.errors.head? with
          | some issue =>
              if issue.message ≠ "" then issue.message
              else getMessage lang .VALIDATION_ERROR
          | none => getMessage lang .VALIDATION_ERROR
        metadata := buildMetadata req }
  | .server e =>
      { code := e.code, message := e.message, metadata := buildMetadata req }
  | .other _ =>
      { code := 500, message := getMessage lang .UNKNOWN_ERROR
        metadata := buildMetadata req }

/-- Modelled from the spec: a best-effort string for a thrown value, used
in the fallback message when the override handler itself fails (§4.2
step 1: "stringified failure"). -/
def stringifyThrown : Thrown → String
  | .zod _ => "ZodError"
  | .server e => e.message
  | .other (.vstr s) => s
  | .other _ => "unknown error"

/-- Modelled from the spec (§4.2 step 1 and §6): the override-capable
normalizer, missing from `src/`.  If a global handler is registered it is
invoked with `(error, request)`; if that invocation itself fails the
failure is caught and a code-500 fallback is returned — the normalizer
never propagates an exception.  With no handler registered the default
precedence of steps 2–4 applies.  The registered handler (set by
`setGlobalErrorHandler`, cleared by registering `none`) is the
process-wide singleton state, passed here explicitly. -/
def normalizeWithOverride (globalHandler : Option GlobalErrorHandler)
    (lang : LangType) (error : Thrown) (req : Request) : NormalizedError :=
  match globalHandler with
  | some h =>
      match h error req with
      | .ok r => r
      | .error f =>
          { code := 500, message := stringifyThrown f
            metadata := buildMetadata req }
  | none => defaultNormalize lang error req

/-- Middlewares that can be seen, without looking at the request, to call
`next` exactly once and never throw: the generic context-extending
middleware and the pagination step (the table in §4.3 marks pagination
"never fails"). -/
def Step.alwaysPasses : Step → Bool
  | .addField _ _ => true
  | .pagination _ => true
  | _ => false

/-- The context update performed by an always-passing middleware. -/
def applyStep (s : Step) (req : Request) (ctx : Ctx) : Ctx :=
  match s with
  | .addField k v => setField ctx k v
  | .pagination cfg =>
      setField ctx "pagination" (computePagination cfg req.searchParams).toVal
  | _ => ctx

/-- Fold a list of middleware context updates over a starting context. -/
def applySteps (steps : List Step) (req : Request) (ctx : Ctx) : Ctx :=
  steps.foldl (fun c s => applyStep s req c) ctx

/-- The initial pipeline context `{params: resolvedParams}`. -/
def initCtx (params : Val) : Ctx := [("params", params)]

/-- A concrete request for concrete executions: a POST with an empty
JSON-object body. -/
def sampleReq : Request :=
  { method := "POST", url := "http://localhost/", searchParams := []
    jsonBody := .ok (.vobj []) }

/-- A concrete user handler that just returns `null`. -/
def sampleHf : Request → Ctx → Except Thrown Val :=
  fun _ _ => .ok .vnull

/-- A concrete non-error thrown value (a plain string). -/
def sampleBoom : Thrown := .other (.vstr "boom")

theorem getField_map_replace (k : String) (v : Val) :
    ∀ (ctx : Ctx), ctx.any (fun kv => kv.1 = k) = true →
      getField (ctx.map (fun kv => if kv.1 = k then (k, v) else kv)) k = some v := by
  intro ctx
  induction ctx with
  | nil => simp
  | cons p rest ih =>
      intro h
      by_cases hp : p.1 = k
      · simp [getField, List.find?, hp]
      · simp only [List.any_cons, Bool.or_eq_true, decide_eq_true_eq] at h
        rcases h with h | h
        · exact absurd h hp
        · simpa [getField, List.find?, hp] using ih h

theorem getField_append_new (k : String) (v : Val) :
    ∀ (ctx : Ctx), ctx.any (fun kv => kv.1 = k) = false →
      getField (ctx ++ [(k, v)]) k = some v := by
  intro ctx
  induction ctx with
  | nil => simp [getField, List.find?]
  | cons p rest ih =>
      intro h
      simp only [List.any_cons, Bool.or_eq_false_iff, decide_eq_false_iff_not] at h
      simpa [getField, List.find?, h.1] using ih h.2

/-- Reading back the field just written by a spread update. -/
theorem getField_setField_self (ctx : Ctx) (k : String) (v : Val) :
    getField (setField ctx k v) k = some v := by
  unfold setField
  by_cases h : ctx.any (fun kv => kv.1 = k) = true
  · simpa [h] using getField_map_replace k v ctx h
  · simp only [Bool.not_eq_true] at h
    simpa [h] using getField_append_new k v ctx h

theorem getField_map_replace_other (k k2 : String) (v : Val) (hne : k ≠ k2) :
    ∀ (ctx : Ctx),
      getField (ctx.map (fun kv => if kv.1 = k then (k, v) else kv)) k2 =
        getField ctx k2 := by
  intro ctx
  induction ctx with
  | nil => simp
  | cons p rest ih =>
      by_cases hp : p.1 = k
      · have hk2 : p.1 ≠ k2 := hp ▸ hne
        simpa [getField, List.find?, hp, hne, hk2] using ih
      · by_cases hp2 : p.1 = k2
        · have hkk : k2 ≠ k := Ne.symm hne
          simp [getField, List.find?, hp, hp2, hkk]
        · simpa [getField, List.find?, hp, hp2] using ih

theorem getField_append_other (k k2 : String) (v : Val) (hne : k ≠ k2) :
    ∀ (ctx : Ctx), getField (ctx ++ [(k, v)]) k2 = getField ctx k2 := by
  intro ctx
  induction ctx with
  | nil => simp [getField, List.find?, hne]
  | cons p rest ih =>
      by_cases hp2 : p.1 = k2
      · simp [getField, List.find?, hp2]
      · simpa [getField, List.find?, hp2] using ih

/-- A spread update leaves every other field unchanged. -/
theorem getField_setField_other (ctx : Ctx) (k k2 : String) (v : Val)
    (hne : k ≠ k2) : getField (setField ctx k v) k2 = getField ctx k2 := by
  unfold setField
  by_cases h : ctx.any (fun kv => kv.1 = k) = true
  · simpa [h] using getField_map_replace_other k k2 v hne ctx
  · simp only [Bool.not_eq_true] at h
    simpa [h] using getField_append_other k k2 v hne ctx

/-- An always-passing middleware resolves to `some` of its continuation's
result on the extended context. -/
theorem runStep_alwaysPasses (s : Step) (req : Request) (ctx : Ctx)
    (next : Request → Ctx → ResponseV) (h : s.alwaysPasses = true) :
    runStep s req ctx next = .ok (some (next req (applyStep s req ctx))) := by
  cases s <;> simp_all [Step.alwaysPasses, runStep, applyStep]

/-- With no middleware left, the chain runs the user handler and wraps
its outcome: success response on `ok`, catch boundary on `error`. -/
theorem nextRun_nil (lang : LangType) (hf : Request → Ctx → Except Thrown Val)
    (req : Request) (ctx : Ctx) :
    nextRun lang hf [] req ctx =
      match hf req ctx with
      | .ok d => successResponse d
      | .error err => errorResponse (handleServerError lang err (some req)) := by
  cases hx : hf req ctx <;> simp [nextRun, hx]

/-- An always-passing middleware at the head of the chain hands over to
the rest of the chain with the extended context. -/
theorem nextRun_cons_pass (lang : LangType)
    (hf : Request → Ctx → Except Thrown Val) (s : Step) (rest : List Step)
    (req : Request) (ctx : Ctx) (h : s.alwaysPasses = true) :
    nextRun lang hf (s :: rest) req ctx =
      nextRun lang hf rest req (applyStep s req ctx) := by
  simp [nextRun, runStep_alwaysPasses s req ctx _ h]

/-- Always-passing middlewares run strictly in list order, each handing
the rest of the chain the context it extended. -/
theorem nextRun_append_passes (lang : LangType)
    (hf : Request → Ctx → Except Thrown Val) :
    ∀ (pre rest : List Step) (req : Request) (ctx : Ctx),
      (∀ s ∈ pre, s.alwaysPasses = true) →
      nextRun lang hf (pre ++ rest) req ctx =
        nextRun lang hf rest req (applySteps pre req ctx) := by
  intro pre
  induction pre with
  | nil =>
      intro rest req ctx _
      simp [applySteps]
  | cons s pre2 ih =>
      intro rest req ctx h
      have hs := h s (by simp)
      rw [List.cons_append, nextRun_cons_pass lang hf s _ req ctx hs]
      simpa [applySteps] using
        ih rest req (applyStep s req ctx) (fun x hx => h x (by simp [hx]))

/-- A middleware that resolves to `undefined` without calling `next`
makes the chain run the user handler at once, on the context that
middleware received; the rest of the chain is skipped entirely. -/
theorem nextRun_void_cons (lang : LangType)
    (hf : Request → Ctx → Except Thrown Val) (post : List Step)
    (req : Request) (ctx : Ctx) :
    nextRun lang hf (Step.voidStep :: post) req ctx =
      match hf req ctx with
      | .ok d => successResponse d
      | .error err => errorResponse (handleServerError lang err (some req)) := by
  cases hx : hf req ctx <;> simp [nextRun, runStep, hx]

/-- A throwing middleware makes the chain return the normalized error
response from the enclosing catch boundary. -/
theorem nextRun_throw_cons (lang : LangType)
    (hf : Request → Ctx → Except Thrown Val) (t : Thrown) (post : List Step)
    (req : Request) (ctx : Ctx) :
    nextRun lang hf (Step.throwStep t :: post) req ctx =
      errorResponse (handleServerError lang t (some req)) := by
  simp [nextRun, runStep]

/-- Mapping a key-value list to context-extending middlewares and running
their updates is the in-order fold of spread updates. -/
theorem applySteps_map_addField (req : Request) :
    ∀ (kvs : List (String × Val)) (ctx : Ctx),
      applySteps (kvs.map fun kv => Step.addField kv.1 kv.2) req ctx =
        kvs.foldl (fun c kv => setField c kv.1 kv.2) ctx := by
  intro kvs ctx
  simp [applySteps, List.foldl_map, applyStep]

/-- Claim C1, counterexample: a bound handler built by `handle` does not
resolve when the deferred path-parameters value rejects — the rejection
propagates, because `await context.params` happens outside the single
try/catch of `next`.  This refutes "any failure raised while awaiting the
deferred path parameters … is caught". -/
theorem c1_rejected_params_counterexample :
    (createRouteHandler ⟨none, .kr, ⟨"pi", "ps", "sb", "so"⟩⟩).handle sampleHf
        sampleReq (.error sampleBoom) = .error sampleBoom := rfl

/-- Claim C1, amended: once the deferred path parameters resolve, the
bound handler always resolves to a response, for every middleware list
and user handler; a failure thrown by the user handler or by a
middleware is caught and encoded as a normalized error response rather
than a rejection.  Only a rejection of the deferred path-parameters
value itself escapes as a rejection. -/
theorem c1_resolves_after_params (lang : LangType) (steps : List Step)
    (hf : Request → Ctx → Except Thrown Val) (req : Request) (params : Val)
    (t : Thrown) :
    (∃ r, handleRun lang steps hf req (.ok params) = .ok r)
    ∧ handleRun lang [] (fun _ _ => .error t) req (.ok params) =
        .ok (errorResponse (handleServerError lang t (some req)))
    ∧ handleRun lang [Step.throwStep t] hf req (.ok params) =
        .ok (errorResponse (handleServerError lang t (some req))) := by
  refine ⟨⟨_, rfl⟩, ?_, ?_⟩
  · show Except.ok (nextRun lang _ [] req (initCtx params)) = _
    rw [nextRun_nil]
  · show Except.ok (nextRun lang hf [Step.throwStep t] req (initCtx params)) = _
    rw [nextRun_throw_cons]

/-- Claim C2: chained steps run strictly in append order, each seeing the
context exactly as left by all strictly-earlier steps; a user handler
that returns its whole context observes every appended field (both
`fieldA` and `fieldB`, in either chaining order), and when every step
calls `next` the user handler's return value is wrapped as
`{code: 200, message: "success", data: returnValue}`. -/
theorem c2_ordering (lang : LangType) (kvs : List (String × Val))
    (req : Request) (params : Val) (ctx : Ctx) (a b : Val) :
    handleRun lang (kvs.map fun kv => Step.addField kv.1 kv.2)
        (fun _ c => .ok (.vobj c)) req (.ok params) =
      .ok (successResponse
        (.vobj (kvs.foldl (fun c kv => setField c kv.1 kv.2) (initCtx params))))
    ∧ getField (setField (setField ctx "fieldA" a) "fieldB" b) "fieldA" = some a
    ∧ getField (setField (setField ctx "fieldA" a) "fieldB" b) "fieldB" = some b
    ∧ getField (setField (setField ctx "fieldB" b) "fieldA" a) "fieldA" = some a
    ∧ getField (setField (setField ctx "fieldB" b) "fieldA" a) "fieldB" = some b := by
  refine ⟨?_, ?_, ?_, ?_, ?_⟩
  · show Except.ok
        (nextRun lang _ (kvs.map fun kv => Step.addField kv.1 kv.2) req
          (initCtx params)) = _
    rw [show (kvs.map fun kv => Step.addField kv.1 kv.2) =
          (kvs.map fun kv => Step.addField kv.1 kv.2) ++ [] by simp,
        nextRun_append_passes lang _ _ [] req (initCtx params) ?_,
        applySteps_map_addField, nextRun_nil]
    intro s hs
    obtain ⟨kv, _, rfl⟩ := List.mem_map.mp hs
    rfl
  · rw [getField_setField_other _ _ _ _ (by decide), getField_setField_self]
  · rw [getField_setField_self]
  · rw [getField_setField_self]
  · rw [getField_setField_other _ _ _ _ (by decide), getField_setField_self]

/-- Claim C3, counterexample: a Zod failure whose first issue carries the
empty-string message.  The claim says the 400 response carries the first
issue's message; the code's `||` fallback replaces the empty string by
the generic localized validation message instead. -/
theorem c3_empty_issue_counterexample :
    (⟨[⟨""⟩]⟩ : ZodError).errors.head? = some ⟨""⟩
    ∧ (handleServerError (π := Request) .kr (.zod ⟨[⟨""⟩]⟩) none).message ≠ ""
    ∧ (handleServerError (π := Request) .kr (.zod ⟨[⟨""⟩]⟩) none).message =
        getMessage .kr .VALIDATION_ERROR := by
  refine ⟨rfl, ?_, rfl⟩
  decide

/-- Claim C3, amended: `handleServerError` is a total function of the
thrown value (every `Thrown`, including plain strings and data, is
covered).  A Zod failure yields code 400 with the first issue's message
when that message is non-empty, and the generic localized validation
message when the issue list is empty or its first message is the empty
string; every value that is neither a Zod error nor a taxonomy
`ServerError` yields code 500 with the generic localized unknown-error
message. -/
theorem c3_handleServerError_total (π : Type) (lang : LangType)
    (payload : Option π) :
    (∀ e : ZodError,
        (handleServerError lang (.zod e) payload).code = 400
        ∧ (handleServerError lang (.zod e) payload).message =
            (match e.errors.head? with
             | some issue =>
                 if issue.message ≠ "" then issue.message
                 else getMessage lang .VALIDATION_ERROR
             | none => getMessage lang .VALIDATION_ERROR))
    ∧ (∀ v : Val,
        (handleServerError lang (.other v) payload).code = 500
        ∧ (handleServerError lang (.other v) payload).message =
            getMessage lang .UNKNOWN_ERROR) :=
  ⟨fun _ => ⟨rfl, rfl⟩, fun _ => ⟨rfl, rfl⟩⟩

/-- Claim C4: a taxonomy `ServerError` thrown by the user handler or by a
middleware — after any chain of passing middlewares — produces the
normalized response whose `code` and `message` are the error's own, and
the transport status of that response equals that code. -/
theorem c4_taxonomy_response (lang : LangType) (e : ServerError)
    (steps : List Step) (req : Request) (params : Val)
    (hf : Request → Ctx → Except Thrown Val)
    (hpass : ∀ s ∈ steps, s.alwaysPasses = true) :
    handleRun lang steps (fun _ _ => .error (.server e)) req (.ok params) =
      .ok (errorResponse
        { code := e.code, message := e.message, payload := e.payload.map Sum.inr })
    ∧ handleRun lang (steps ++ [Step.throwStep (.server e)]) hf req (.ok params) =
        .ok (errorResponse
          { code := e.code, message := e.message, payload := e.payload.map Sum.inr })
    ∧ (errorResponse
        { code := e.code, message := e.message
          payload := (e.payload.map Sum.inr : Option (Request ⊕ Val)) }).status =
        e.code := by
  refine ⟨?_, ?_, rfl⟩
  · show Except.ok (nextRun lang _ steps req (initCtx params)) = _
    rw [show steps = steps ++ [] by simp,
        nextRun_append_passes lang _ _ [] req (initCtx params) hpass, nextRun_nil]
    rfl
  · show Except.ok
        (nextRun lang hf (steps ++ [Step.throwStep (.server e)]) req
          (initCtx params)) = _
    rw [nextRun_append_passes lang hf _ _ req (initCtx params) hpass,
        nextRun_throw_cons]
    rfl

/-- The base constructor keeps the given `code` in both branches. -/
theorem construct_code (a : ServerErrorArgs) :
    (ServerError.construct a).code = a.code := by
  unfold ServerError.construct
  split <;> rfl

/-- The base constructor keeps the given `message` in both branches. -/
theorem construct_message (a : ServerErrorArgs) :
    (ServerError.construct a).message = a.message := by
  unfold ServerError.construct
  split <;> rfl

/-- The base constructor copies the given `payload` in both branches. -/
theorem construct_payload (a : ServerErrorArgs) :
    (ServerError.construct a).payload = a.payload := by
  unfold ServerError.construct
  split <;> rfl

/-- The base constructor copies a supplied `method` (`method ?? "none"`). -/
theorem construct_method (a : ServerErrorArgs) (m : String)
    (h : a.method = some m) : (ServerError.construct a).method = some m := by
  unfold ServerError.construct
  split <;> simp [h]

/-- The base constructor copies a supplied non-empty `url` (the truthy
branch of `if (url)`). -/
theorem construct_url (a : ServerErrorArgs) (u : String) (h : a.url = some u)
    (hne : u ≠ "") : (ServerError.construct a).url = some u := by
  unfold ServerError.construct
  have ht : truthyStr a.url = true := by simp [truthyStr, h, hne]
  simp [h] at ht ⊢
  simp [ht]

/-- Claim C5, counterexample: the overrides `{url: ""}` supply a `url`,
but the constructed error's `url` is `undefined`, not the supplied
value — `if (url)` treats the empty string as absent.  This refutes
"payload/method/url are copied from the overrides when present". -/
theorem c5_empty_url_counterexample :
    (NotFoundError .kr { url := some "" }).url = none
    ∧ (NotFoundError .kr { url := some "" }).url ≠ some "" := by
  decide

/-- Claim C5, amended: each named taxonomy kind has its fixed status code
(401/403/400/404/500/408) and defaults to the kind's localized message;
`payload` is always copied from the overrides, `method` is copied when
present, and `url` is copied when present and non-empty (an empty-string
`url` is treated as absent).  A message override — supported by the
per-kind constructor interface of §4.1, which under `src/` exists only
for the base `ServerError` — replaces the default message; with no
override the default localized message is used. -/
theorem c5_taxonomy_construction (lang : LangType) (args : SubErrorArgs)
    (k : ErrorKind) (o : KindOverrides) :
    ((UnauthorizedError lang args).code = 401
      ∧ (UnauthorizedError lang args).message = getMessage lang .UNAUTHORIZED_ERROR)
    ∧ ((ForbiddenError lang args).code = 403
      ∧ (ForbiddenError lang args).message = getMessage lang .FORBIDDEN_ERROR)
    ∧ ((ValidationError lang args).code = 400
      ∧ (ValidationError lang args).message = getMessage lang .VALIDATION_ERROR)
    ∧ ((NotFoundError lang args).code = 404
      ∧ (NotFoundError lang args).message = getMessage lang .NOT_FOUND_ERROR)
    ∧ ((InternalServerError lang args).code = 500
      ∧ (InternalServerError lang args).message = getMessage lang .INTERNAL_ERROR)
    ∧ ((TimeoutError lang args).code = 408
      ∧ (TimeoutError lang args).message = getMessage lang .TIMEOUT_ERROR)
    ∧ (NotFoundError lang args).payload = args.payload
    ∧ (∀ m, args.method = some m → (NotFoundError lang args).method = some m)
    ∧ (∀ u, args.url = some u → u ≠ "" → (NotFoundError lang args).url = some u)
    ∧ (constructKind lang k o).code = k.code
    ∧ (o.message = none →
        (constructKind lang k o).message = getMessage lang k.defaultKey)
    ∧ (∀ m, o.message = some m → (constructKind lang k o).message = m) := by
  refine ⟨⟨construct_code _, construct_message _⟩, ⟨construct_code _, construct_message _⟩,
    ⟨construct_code _, construct_message _⟩, ⟨construct_code _, construct_message _⟩,
    ⟨construct_code _, construct_message _⟩, ⟨construct_code _, construct_message _⟩,
    construct_payload _, fun m hm => construct_method _ m hm,
    fun u hu hne => construct_url _ u hu hne, construct_code _, ?_, ?_⟩
  · intro hm
    rw [constructKind, construct_message]
    simp [hm]
  · intro m hm
    rw [constructKind, construct_message]
    simp [hm]

/-- Claim C5, witness: concrete construction — `NotFoundError` with a
payload, method and non-empty url copies all three and keeps code 404
with the default Korean message; the kind-constructor with an override
message uses the override. -/
theorem c5_taxonomy_construction_witness :
    (NotFoundError .kr
        { payload := some .vnull, method := some "POST"
          url := some "http://localhost/" }).code = 404
    ∧ (NotFoundError .kr
        { payload := some .vnull, method := some "POST"
          url := some "http://localhost/" }).method = some "POST"
    ∧ (NotFoundError .kr
        { payload := some .vnull, method := some "POST"
          url := some "http://localhost/" }).url = some "http://localhost/"
    ∧ (constructKind .kr .notFound { message := some "custom" }).message =
        "custom"
    ∧ (constructKind .kr .notFound {}).message =
        getMessage .kr .NOT_FOUND_ERROR := by
  obtain ⟨_, _, _, ⟨h404, _⟩, _, _, _, hmeth, hurl, _, _, hover⟩ :=
    c5_taxonomy_construction .kr
      ⟨some .vnull, some "POST", some "http://localhost/"⟩ .notFound
      ⟨some "custom", none, none, none⟩
  obtain ⟨_, _, _, _, _, _, _, _, _, _, hdef, _⟩ :=
    c5_taxonomy_construction .kr ⟨none, none, none⟩ .notFound ⟨none, none, none, none⟩
  exact ⟨h404, hmeth "POST" rfl, hurl "http://localhost/" rfl (by decide),
    hover "custom" rfl, hdef rfl⟩

/-- Claim C4, witness: a `NotFoundError` thrown by the user handler after
one context-extending middleware yields that error's own code and
message, with the transport status equal to the code. -/
theorem c4_taxonomy_response_witness :
    handleRun .kr [Step.addField "x" .vnull]
        (fun _ _ => .error (.server (NotFoundError .kr {}))) sampleReq
        (.ok .vnull) =
      .ok (errorResponse
        { code := (NotFoundError .kr {}).code
          message := (NotFoundError .kr {}).message
          payload := (NotFoundError .kr {}).payload.map Sum.inr }) :=
  (c4_taxonomy_response .kr (NotFoundError .kr {}) [Step.addField "x" .vnull]
    sampleReq .vnull sampleHf (by decide)).1

/-- Claim C6: with a registered global override handler, the normalizer
returns exactly the handler's value for every error and request; when the
handler's own invocation fails, the failure is caught and a code-500
fallback is returned instead of propagating; once the override is
cleared, the default precedence applies again. -/
theorem c6_global_override (lang : LangType) (r : NormalizedError)
    (err : Thrown) (req : Request) (f : Thrown) :
    normalizeWithOverride (some (fun _ _ => .ok r)) lang err req = r
    ∧ (normalizeWithOverride (some (fun _ _ => .error f)) lang err req).code = 500
    ∧ normalizeWithOverride none lang err req = defaultNormalize lang err req :=
  ⟨rfl, rfl, rfl⟩

/-- Claim C7: with parameter names `{pi, ps, sb, so}`, an empty query
yields the default pagination `{pageIndex: 0, pageSize: 10, skip: 0,
sortBy: "createdAt", sortOrder: "asc"}`, and `pi=2&ps=5&sb=name&so=desc`
yields `{pageIndex: 2, pageSize: 5, skip: 10, sortBy: "name",
sortOrder: "desc"}`; the pagination step injects exactly this value as
the context's `pagination` field. -/
theorem c7_pagination_values :
    computePagination ⟨"pi", "ps", "sb", "so"⟩ [] =
      ⟨⟨0, 0⟩, ⟨10, 0⟩, ⟨0, 0⟩, "createdAt", .asc⟩
    ∧ computePagination ⟨"pi", "ps", "sb", "so"⟩
        [("pi", "2"), ("ps", "5"), ("sb", "name"), ("so", "desc")] =
      ⟨⟨2, 0⟩, ⟨5, 0⟩, ⟨10, 0⟩, "name", .desc⟩
    ∧ ∀ (req : Request) (ctx : Ctx) (next : Request → Ctx → ResponseV),
        runStep (.pagination ⟨"pi", "ps", "sb", "so"⟩) req ctx next =
          .ok (some (next req (setField ctx "pagination"
            (computePagination ⟨"pi", "ps", "sb", "so"⟩ req.searchParams).toVal))) :=
  ⟨by decide, by decide, fun _ _ _ => rfl⟩

/-- Claim C8, counterexample: negative numeric query values are kept
verbatim — `pi=-1` yields `pageIndex = -1 < 0` and `ps=-5` yields
`pageSize = -5 < 0`, refuting the unconditional invariant
`pageIndex >= 0 ∧ pageSize > 0`. -/
theorem c8_negative_counterexample :
    JsNum.lt (computePagination ⟨"pi", "ps", "sb", "so"⟩ [("pi", "-1")]).pageIndex
        ⟨0, 0⟩
    ∧ ¬ JsNum.le ⟨0, 0⟩
        (computePagination ⟨"pi", "ps", "sb", "so"⟩ [("pi", "-1")]).pageIndex
    ∧ JsNum.lt (computePagination ⟨"pi", "ps", "sb", "so"⟩ [("ps", "-5")]).pageSize
        ⟨0, 0⟩ := by
  decide

/-- Claim C8, amended: the pagination step never fails (it always calls
`next` with the computed `pagination` field); `skip` is always the exact
product of `pageIndex` and `pageSize`; `sortOrder` is `"desc"` exactly
when the query's sort-order value is the literal `"desc"` and `"asc"`
otherwise; and `pageIndex ≥ 0` and `pageSize > 0` hold provided every
numeric value supplied for the pageIndex/pageSize parameters is
nonnegative (the code keeps negative values verbatim). -/
theorem c8_pagination_invariant (cfg : PaginationCfg) (req : Request) :
    (computePagination cfg req.searchParams).skip =
      (computePagination cfg req.searchParams).pageIndex.mul
        (computePagination cfg req.searchParams).pageSize
    ∧ ((computePagination cfg req.searchParams).sortOrder = .desc ↔
        spGet req.searchParams cfg.sortOrder = some "desc")
    ∧ ((∀ s q, spGet req.searchParams cfg.pageIndex = some s →
          jsNumber s = some q → 0 ≤ q.num) →
        JsNum.le ⟨0, 0⟩ (computePagination cfg req.searchParams).pageIndex)
    ∧ ((∀ s q, spGet req.searchParams cfg.pageSize = some s →
          jsNumber s = some q → 0 ≤ q.num) →
        JsNum.lt ⟨0, 0⟩ (computePagination cfg req.searchParams).pageSize)
    ∧ (∀ (ctx : Ctx) (next : Request → Ctx → ResponseV),
        runStep (.pagination cfg) req ctx next =
          .ok (some (next req (setField ctx "pagination"
            (computePagination cfg req.searchParams).toVal)))) := by
  refine ⟨rfl, ?_, ?_, ?_, fun _ _ => rfl⟩
  · by_cases h : spGet req.searchParams cfg.sortOrder = some "desc" <;>
      simp [computePagination, h]
  · intro hnn
    show JsNum.le ⟨0, 0⟩ (numberOr (spGet req.searchParams cfg.pageIndex) ⟨0, 0⟩)
    cases hs : spGet req.searchParams cfg.pageIndex with
    | none => simp [numberOr, JsNum.le]
    | some s =>
        cases hq : jsNumber s with
        | none => simp [numberOr, hq, JsNum.le]
        | some q =>
            by_cases hz : q.num = 0
            · simp [numberOr, hq, hz, JsNum.le]
            · have h0 : 0 ≤ q.num := hnn s q hs hq
              simp only [numberOr, hq, hz, if_false, JsNum.le]
              simpa using h0
  · intro hnn
    show JsNum.lt ⟨0, 0⟩ (numberOr (spGet req.searchParams cfg.pageSize) ⟨10, 0⟩)
    cases hs : spGet req.searchParams cfg.pageSize with
    | none => simp [numberOr, JsNum.lt]
    | some s =>
        cases hq : jsNumber s with
        | none => simp [numberOr, hq, JsNum.lt]
        | some q =>
            by_cases hz : q.num = 0
            · simp [numberOr, hq, hz, JsNum.lt]
            · have h0 : 0 ≤ q.num := hnn s q hs hq
              have hpos : 0 < q.num := lt_of_le_of_ne h0 (Ne.symm hz)
              simp only [numberOr, hq, hz, if_false, JsNum.lt]
              simpa using hpos

/-- Claim C8, witness: with nonnegative numeric query values
(`pi=2&ps=5`), the pagination invariant yields `pageIndex ≥ 0` and
`pageSize > 0` (and the exact product and sort-order facts). -/
theorem c8_pagination_invariant_witness :
    JsNum.le ⟨0, 0⟩
      (computePagination ⟨"pi", "ps", "sb", "so"⟩
        (Request.searchParams
          { method := "GET", url := "", jsonBody := .error (.other .vundefined)
            searchParams := [("pi", "2"), ("ps", "5")] })).pageIndex
    ∧ JsNum.lt ⟨0, 0⟩
      (computePagination ⟨"pi", "ps", "sb", "so"⟩
        (Request.searchParams
          { method := "GET", url := "", jsonBody := .error (.other .vundefined)
            searchParams := [("pi", "2"), ("ps", "5")] })).pageSize := by
  obtain ⟨_, _, hpi, hps, _⟩ :=
    c8_pagination_invariant ⟨"pi", "ps", "sb", "so"⟩
      { method := "GET", url := "", jsonBody := .error (.other .vundefined)
        searchParams := [("pi", "2"), ("ps", "5")] }
  refine ⟨hpi ?_, hps ?_⟩
  · intro s q h1 h2
    have hs : s = "2" := by
      have : some "2" = some s := h1
      exact (Option.some.inj this).symm
    subst hs
    have hq : q = ⟨2, 0⟩ := by
      have : some (⟨2, 0⟩ : JsNum) = some q := h2
      exact (Option.some.inj this).symm
    subst hq
    decide
  · intro s q h1 h2
    have hs : s = "5" := by
      have : some "5" = some s := h1
      exact (Option.some.inj this).symm
    subst hs
    have hq : q = ⟨5, 0⟩ := by
      have : some (⟨5, 0⟩ : JsNum) = some q := h2
      exact (Option.some.inj this).symm
    subst hq
    decide

/-- Claim C9: chaining calls are copy-on-append — each returns a distinct
new builder whose middleware list is the original list with the one new
step at the end, so the original builder (and any sibling derived from
the same common stem) keeps exactly its own steps; and `handle` reads
the builder's step list without consuming it, so two bound handlers made
from the same builder with different user functions each run the full
step list independently. -/
theorem c9_builder_immutable (h : RouteHandler) (s s2 : Schema)
    (hf hg : Request → Ctx → Except Thrown Val) (req : Request)
    (p : Except Thrown Val) :
    (h.verifyBody s).middlewares = h.middlewares ++ [.verifyBody s]
    ∧ (h.verifyParams s).middlewares = h.middlewares ++ [.verifyParams s]
    ∧ (h.verifyQuery s).middlewares = h.middlewares ++ [.verifyQuery s]
    ∧ (h.pagination).middlewares = h.middlewares ++ [.pagination h.options.pagination]
    ∧ h.verifyBody s ≠ h
    ∧ (h.verifyBody s).middlewares.take h.middlewares.length = h.middlewares
    ∧ (h.verifyQuery s2).middlewares.take h.middlewares.length = h.middlewares
    ∧ h.handle hf req p = handleRun h.options.lang h.middlewares hf req p
    ∧ h.handle hg req p = handleRun h.options.lang h.middlewares hg req p := by
  refine ⟨rfl, rfl, rfl, rfl, ?_, ?_, ?_, rfl, rfl⟩
  · intro heq
    have hlen := congrArg (fun x => x.middlewares.length) heq
    simp [RouteHandler.verifyBody] at hlen
  · exact List.take_left h.middlewares [Step.verifyBody s]
  · exact List.take_left h.middlewares [Step.verifyQuery s2]

/-- Claim C10: a middleware that resolves to a non-response value
(`undefined`, without calling `next`) makes the bound handler run the
user handler immediately, on the context exactly as that middleware
received it; every later middleware is skipped outright, and the user
handler's value is wrapped as the code-200 success response. -/
theorem c10_void_falls_through (lang : LangType) (pre post : List Step)
    (hf : Request → Ctx → Except Thrown Val) (req : Request) (params d : Val)
    (hpass : ∀ s ∈ pre, s.alwaysPasses = true)
    (hd : hf req (applySteps pre req (initCtx params)) = .ok d) :
    handleRun lang (pre ++ Step.voidStep :: post) hf req (.ok params) =
      .ok (successResponse d) := by
  show Except.ok
      (nextRun lang hf (pre ++ Step.voidStep :: post) req (initCtx params)) = _
  rw [nextRun_append_passes lang hf pre _ req (initCtx params) hpass,
    nextRun_void_cons, hd]

/-- Claim C10, witness: with one context-extending middleware before the
void-returning one and a throwing middleware after it, the response is
the 200 success wrap of the user handler run on the context the void
middleware received — the later throwing middleware never runs. -/
theorem c10_void_falls_through_witness :
    handleRun .kr
        ([Step.addField "x" (.vstr "v")] ++
          Step.voidStep :: [Step.throwStep sampleBoom])
        (fun _ c => .ok (.vobj c)) sampleReq (.ok .vnull) =
      .ok (successResponse
        (.vobj (applySteps [Step.addField "x" (.vstr "v")] sampleReq
          (initCtx .vnull)))) :=
  c10_void_falls_through .kr [Step.addField "x" (.vstr "v")]
    [Step.throwStep sampleBoom] (fun _ c => .ok (.vobj c)) sampleReq .vnull
    (.vobj (applySteps [Step.addField "x" (.vstr "v")] sampleReq (initCtx .vnull)))
    (by decide) rfl
